import Mathlib

/-!
A shallow embedding of the short-code allocation and redirect-resolution
core of the `hpower2/url-shortener` repository.

The Go sources embedded here:
* `internal/errors` — the `AppError` taxonomy and its constructors.
* `internal/models/url.go` — the `URL` record, `CreateURLRequest`,
  `UpdateURLRequest`, their `Validate` methods, `IsExpired`, and URL
  normalization.
* `internal/models/user.go` — `User.CanCreateLink`.
* `internal/repository/url_repository.go` — the record-store operations
  (`Create`, `GetByShortCode`, `ExistsByShortCode`, `Update`,
  `DeleteByUser`, `CheckOwnership`); the Postgres table is modelled as a
  list of rows and the unique index on `short_code` makes an insert of a
  present key fail.
* `internal/repository/cache_repository.go` — the Redis cache as an
  association list keyed by `"url:" ++ code`.
* `internal/services/url_service.go` — `CreateURL`, `GetURL`,
  `UpdateURL`, `DeleteURL`, `generateUniqueShortCode`,
  `generateShortCode`, `randomInt`.
* `handlers/url_handlers.go` — `handleError`, which serializes an
  `AppError` with its own `StatusCode` and `Code`.

Time is modelled as an integer instant (`Int`); `time.Now().After(e)`
becomes `now > e`.  Randomness is modelled as an explicit stream of
random bytes `Nat → Nat` (each value taken mod 256), consumed exactly as
`crypto/rand.Read` fills the one-byte buffer of `randomInt`.  The race
window between the existence check and the insert in `CreateURL` is
modelled by an `interleaved` list of rows committed by concurrent
writers after the check and before the insert.
-/

namespace UrlShortener

/-! ## Error taxonomy (internal/errors) -/

/-- `ErrorCode` constants from the `errors` package. -/
inductive ErrCode where
  | validation
  | notFound
  | inactive
  | expired
  | alreadyExists
  | unauthorized
  | forbidden
  | rateLimit
  | badRequest
  | internal
  | database
  | redis
  | externalService
  | timeout
  deriving DecidableEq, Repr

/-- `AppError`: structured application error with code, message and the
HTTP status the handler will emit. -/
structure AppError where
  code : ErrCode
  message : String
  statusCode : Nat
  deriving DecidableEq, Repr

def newValidationError (msg : String) : AppError := ⟨.validation, msg, 400⟩

def newNotFoundError (msg : String) : AppError := ⟨.notFound, msg, 404⟩

def newInactiveError (msg : String) : AppError := ⟨.inactive, msg, 410⟩

def newExpiredError (msg : String) : AppError := ⟨.expired, msg, 410⟩

def newAlreadyExistsError (msg : String) : AppError := ⟨.alreadyExists, msg, 409⟩

def newForbiddenError (msg : String) : AppError := ⟨.forbidden, msg, 403⟩

def newInternalError (msg : String) : AppError := ⟨.internal, msg, 500⟩

def newDatabaseError (msg : String) : AppError := ⟨.database, msg, 500⟩

/-- The JSON response `Handler.handleError` produces: it emits
`appErr.StatusCode` as the HTTP status and `ToErrorResponse`'s body,
whose `code` field is the `AppError`'s own code. -/
structure HandlerResponse where
  status : Nat
  code : ErrCode
  message : String
  deriving DecidableEq, Repr

/-- `Handler.handleError` for an `AppError`: `c.JSON(appErr.StatusCode,
appErr.ToErrorResponse())`. -/
def handleError (e : AppError) : HandlerResponse :=
  ⟨e.statusCode, e.code, e.message⟩

/-! ## Data model (internal/models) -/

/-- The `URL` record (`urls` table row). -/
structure URL where
  id : Nat
  shortCode : String
  originalURL : String
  userID : Nat
  createdAt : Int
  updatedAt : Int
  clickCount : Nat
  isActive : Bool
  expiresAt : Option Int
  userAgent : String
  ipAddress : String
  deriving DecidableEq, Repr

/-- `URL.IsExpired`: false when `ExpiresAt` is nil, otherwise
`time.Now().After(*u.ExpiresAt)`. -/
def URL.isExpired (u : URL) (now : Int) : Bool :=
  match u.expiresAt with
  | none => false
  | some e => now > e

/-- `User` (the fields the URL service consults). -/
structure User where
  id : Nat
  email : String
  isActive : Bool
  linkCount : Nat
  linkLimit : Nat
  deriving DecidableEq, Repr

/-- `User.CanCreateLink`: `u.LinkCount < u.LinkLimit`. -/
def User.canCreateLink (u : User) : Bool :=
  u.linkCount < u.linkLimit

/-! ## URL normalization (models/url.go) -/

/-- Go `unicode.IsSpace`: the Unicode White_Space property (code points
U+0009-U+000D, U+0020, U+0085, U+00A0, U+1680, U+2000-U+200A, U+2028,
U+2029, U+202F, U+205F, U+3000). -/
def goIsSpace (c : Char) : Bool :=
  let n := c.toNat
  n == 0x20 || (0x9 ≤ n && n ≤ 0xd) || n == 0x85 || n == 0xa0 ||
  n == 0x1680 || (0x2000 ≤ n && n ≤ 0x200a) || n == 0x2028 || n == 0x2029 ||
  n == 0x202f || n == 0x205f || n == 0x3000

/-- Leading-whitespace removal (half of `strings.TrimSpace`). -/
def trimLeftChars (l : List Char) : List Char :=
  l.dropWhile goIsSpace

/-- Trailing-whitespace removal (the other half of `strings.TrimSpace`). -/
def trimRightChars (l : List Char) : List Char :=
  (l.reverse.dropWhile goIsSpace).reverse

/-- `strings.TrimSpace`. -/
def goTrimSpace (s : String) : String :=
  ⟨trimRightChars (trimLeftChars s.data)⟩

/-- `strings.HasPrefix` on rune lists. -/
def hasPrefixChars : List Char → List Char → Bool
  | _, [] => true
  | [], _ :: _ => false
  | a :: s, b :: p => a == b && hasPrefixChars s p

/-- `strings.HasPrefix`. -/
def goHasPrefix (s p : String) : Bool :=
  hasPrefixChars s.data p.data

/-- The URL normalization performed by `URL.NormalizeURL`,
`CreateURLRequest.Validate` and `UpdateURLRequest.Validate`:
`strings.TrimSpace`, then prefix `https://` unless the string already
starts with `http://` or `https://`. -/
def normalizeURL (s : String) : String :=
  let t := goTrimSpace s
  if goHasPrefix t "http://" || goHasPrefix t "https://" then t
  else "https://" ++ t

/-- The authority (host) segment `net/url.Parse` extracts from an
`http://`/`https://` URL: the runes after the scheme prefix up to the
first `/`, `?` or `#`. -/
def hostOf (s : String) : String :=
  let rest :=
    if goHasPrefix s "http://" then s.data.drop 7
    else if goHasPrefix s "https://" then s.data.drop 8
    else s.data
  ⟨rest.takeWhile fun c => !(c == '/' || c == '?' || c == '#')⟩

/-- Character class accepted for custom codes by
`CreateURLRequest.Validate`: `[a-zA-Z0-9-]`. -/
def isCustomCodeChar (c : Char) : Bool :=
  ('a' ≤ c && c ≤ 'z') || ('A' ≤ c && c ≤ 'Z') || ('0' ≤ c && c ≤ '9') || c == '-'

/-! ## Requests and their validation -/

/-- `CreateURLRequest`; `ExpiresAt` is the `OptionalTime` (nil or an
instant). -/
structure CreateURLRequest where
  url : String
  customCode : String
  expiresAt : Option Int
  deriving DecidableEq, Repr

/-- `CreateURLRequest.Validate`: requires a non-empty URL, normalizes it
in place, requires scheme and host, checks the custom code's length and
character class, and rejects an expiry in the past. Returns the
normalized request (Go mutates `req`). -/
def CreateURLRequest.validate (req : CreateURLRequest) (now : Int) :
    Except String CreateURLRequest :=
  if req.url == "" then .error "URL is required"
  else
    let u := normalizeURL req.url
    if hostOf u == "" then .error "URL must have scheme and host"
    else if req.customCode != "" &&
        (req.customCode.length < 3 || req.customCode.length > 20) then
      .error "custom code must be between 3 and 20 characters"
    else if req.customCode != "" && !req.customCode.data.all isCustomCodeChar then
      .error "custom code must contain only alphanumeric characters"
    else
      match req.expiresAt with
      | some e =>
        if e < now then .error "expiration date cannot be in the past"
        else .ok { req with url := u }
      | none => .ok { req with url := u }

/-- `UpdateURLRequest`: all fields optional; empty string means
"no change" for the target URL. -/
structure UpdateURLRequest where
  originalURL : String
  isActive : Option Bool
  expiresAt : Option Int
  deriving DecidableEq, Repr

/-- `UpdateURLRequest.Validate`: when a new target is given, normalize
it and require scheme and host; reject an expiry in the past. -/
def UpdateURLRequest.validate (req : UpdateURLRequest) (now : Int) :
    Except String UpdateURLRequest :=
  let step1 : Except String UpdateURLRequest :=
    if req.originalURL == "" then .ok req
    else
      let u := normalizeURL req.originalURL
      if hostOf u == "" then .error "URL must have scheme and host"
      else .ok { req with originalURL := u }
  match step1 with
  | .error e => .error e
  | .ok r =>
    match r.expiresAt with
    | some e =>
      if e < now then .error "expiration date cannot be in the past"
      else .ok r
    | none => .ok r

/-! ## Record store (internal/repository/url_repository.go) -/

/-- The `urls` table. -/
abbrev Store := List URL

/-- `ExistsByShortCode`: `SELECT EXISTS(SELECT 1 FROM urls WHERE
short_code = $1)`. -/
def existsByShortCode (s : Store) (code : String) : Bool :=
  s.any fun u => u.shortCode == code

/-- `GetByShortCode`: the row with the given code (the unique index
makes at most one row match). -/
def getByShortCode (s : Store) (code : String) : Option URL :=
  s.find? fun u => u.shortCode == code

/-- `CheckOwnership`: `SELECT COUNT(*) FROM urls WHERE short_code = $1
AND user_id = $2`, then `count > 0`. -/
def checkOwnership (s : Store) (code : String) (userID : Nat) : Bool :=
  (s.filter fun u => u.shortCode == code && u.userID == userID).length > 0

/-- `Create`: `INSERT INTO urls ...`.  The unique index on `short_code`
makes the insert fail when the key is already present; the repository
wraps any driver error into `"failed to create URL: ..."`. -/
def repoCreate (s : Store) (u : URL) : Except String Store :=
  if existsByShortCode s u.shortCode then
    .error "failed to create URL: duplicate key violates unique constraint"
  else .ok (s ++ [u])

/-- `Update`: `UPDATE urls SET original_url, is_active, expires_at,
updated_at WHERE short_code = $1 RETURNING ...`; only these four columns
change, and the passed-in record is returned.  With no matching row the
`RETURNING` scan fails. -/
def repoUpdate (s : Store) (u : URL) : Except String (URL × Store) :=
  if existsByShortCode s u.shortCode then
    .ok (u, s.map fun r =>
      if r.shortCode == u.shortCode then
        { r with originalURL := u.originalURL, isActive := u.isActive,
                 expiresAt := u.expiresAt, updatedAt := u.updatedAt }
      else r)
  else .error "failed to update URL"

/-- `DeleteByUser`: `DELETE FROM urls WHERE short_code = $1 AND user_id
= $2`; zero rows affected is an error. -/
def deleteByUser (s : Store) (code : String) (userID : Nat) : Except String Store :=
  let s' := s.filter fun u => !(u.shortCode == code && u.userID == userID)
  if s'.length == s.length then .error "URL not found or not owned by user"
  else .ok s'

/-- The `users` table. -/
abbrev Users := List User

/-- `userRepository.GetByID`. -/
def userGetByID (us : Users) (id : Nat) : Option User :=
  us.find? fun u => u.id == id

/-! ## Cache (internal/repository/cache_repository.go) -/

/-- The Redis keyspace, last write first. -/
abbrev Cache := List (String × String)

/-- Key layout of `SetURL`/`GetURL`/`DeleteURL`: `url:{code}`. -/
def cacheKeyURL (code : String) : String := "url:" ++ code

/-- Redis `SET key val` (last write wins). -/
def cacheSet (c : Cache) (key val : String) : Cache :=
  (key, val) :: c.filter fun p => p.1 != key

/-- Redis `DEL key`. -/
def cacheDel (c : Cache) (key : String) : Cache :=
  c.filter fun p => p.1 != key

/-- Redis `GET key`. -/
def cacheGet (c : Cache) (key : String) : Option String :=
  (c.find? fun p => p.1 == key).map (·.2)

/-- `cacheRepository.SetURL` (the TTL only bounds staleness; it plays no
role in the properties proved here). -/
def cacheSetURL (c : Cache) (code target : String) : Cache :=
  cacheSet c (cacheKeyURL code) target

/-- `cacheRepository.DeleteURL`. -/
def cacheDeleteURL (c : Cache) (code : String) : Cache :=
  cacheDel c (cacheKeyURL code)

/-- `cacheRepository.GetURL`. -/
def cacheGetURL (c : Cache) (code : String) : Option String :=
  cacheGet c (cacheKeyURL code)

/-! ## GetURL (services/url_service.go) -/

/-- Outcome of `urlService.GetURL`: the returned value or error, and the
cache state after the call (the store is never written by `GetURL`). -/
structure GetOutcome where
  result : Except AppError URL
  cache : Cache
  deriving Repr

/-- `urlService.GetURL`: reject the empty code; read the store (never
the cache) for the record; expired ⇒ evict the cache entry and return
`ExpiredError`; inactive ⇒ evict and return `InactiveError`; otherwise
refresh the cache entry and return the record. -/
def getURL (store : Store) (cache : Cache) (now : Int) (shortCode : String) :
    GetOutcome :=
  if shortCode == "" then
    ⟨.error (newValidationError "Short code is required"), cache⟩
  else
    match getByShortCode store shortCode with
    | none => ⟨.error (newNotFoundError "URL not found"), cache⟩
    | some url =>
      if url.isExpired now then
        ⟨.error (newExpiredError "URL has expired"), cacheDeleteURL cache shortCode⟩
      else if !url.isActive then
        ⟨.error (newInactiveError "URL is not active"), cacheDeleteURL cache shortCode⟩
      else
        ⟨.ok url, cacheSetURL cache shortCode url.originalURL⟩

/-! ## Basic cache lemmas -/

theorem cacheGet_cacheDel (c : Cache) (k : String) :
    cacheGet (cacheDel c k) k = none := by
  have h : (cacheDel c k).find? (fun p => p.1 == k) = none := by
    rw [List.find?_eq_none]
    intro x hx
    have hmem := (List.mem_filter.mp hx).2
    simp only [bne_iff_ne, ne_eq] at hmem
    simp [hmem]
  simp [cacheGet, h]

theorem cacheGetURL_cacheDeleteURL (c : Cache) (code : String) :
    cacheGetURL (cacheDeleteURL c code) code = none := by
  simpa [cacheGetURL, cacheDeleteURL] using cacheGet_cacheDel c (cacheKeyURL code)

/-! ## Short-code generation (services/url_service.go) -/

/-- The generation alphabet `[a-zA-Z0-9]` (62 characters). -/
def charset : List Char :=
  "abcdefghijklmnopqrstuvwxyzABCDEFGHIJKLMNOPQRSTUVWXYZ0123456789".data

/-- `urlService.randomInt`: read one random byte and reduce it modulo
`max` (`int(bytes[0]) % max`).  The byte source is modelled as a `Nat`
taken mod 256. -/
def randomInt (b : Nat) (max : Nat) : Nat :=
  (b % 256) % max

/-- `urlService.generateShortCode`: 8 characters, each
`charset[randomInt(len(charset))]`, consuming one random byte per
character. -/
def generateShortCode (bytes : Nat → Nat) : String :=
  ⟨(List.range 8).map fun i => charset.getD (randomInt (bytes i) charset.length) 'a'⟩

/-- The attempt loop of `urlService.generateUniqueShortCode`: attempt
`i` consumes random bytes `8*i .. 8*i+7`; a candidate absent from the
store is returned, and the number of attempts consumed is reported. -/
def generateUniqueShortCodeAux (store : Store) (rng : Nat → Nat) :
    Nat → Nat → Option String × Nat
  | _, 0 => (none, 0)
  | i, n + 1 =>
    let code := generateShortCode fun j => rng (8 * i + j)
    if !existsByShortCode store code then (some code, 1)
    else
      let r := generateUniqueShortCodeAux store rng (i + 1) n
      (r.1, r.2 + 1)

/-- `urlService.generateUniqueShortCode` with its `maxAttempts := 10`. -/
def generateUniqueShortCode (store : Store) (rng : Nat → Nat) :
    Option String × Nat :=
  generateUniqueShortCodeAux store rng 0 10

/-! ## CreateURL (services/url_service.go) -/

/-- `CreateURLResponse` (the fields the service fills). -/
structure CreateURLResponse where
  id : Nat
  shortCode : String
  originalURL : String
  shortURL : String
  isActive : Bool
  createdAt : Int
  expiresAt : Option Int
  deriving DecidableEq, Repr

/-- Outcome of `urlService.CreateURL`: response or error, the table and
cache after the call, and how many generator attempts were consumed. -/
structure CreateOutcome where
  result : Except AppError CreateURLResponse
  store : Store
  cache : Cache
  genAttempts : Nat
  deriving Repr

/-- The tail of `CreateURL` once a short code has been chosen: build the
record, insert it (against the table as it stands at insert time, i.e.
including rows committed by concurrent writers since the existence
check), wrap an insert failure as `DatabaseError`, and on success
write-through to the cache and build the response. -/
def finishCreate (store : Store) (cache : Cache) (interleaved : List URL)
    (reqN : CreateURLRequest) (userID : Nat) (clientIP userAgent : String)
    (now : Int) (baseURL : String) (code : String) (attempts : Nat) :
    CreateOutcome :=
  let insertStore := store ++ interleaved
  let url : URL :=
    { id := insertStore.length + 1, shortCode := code, originalURL := reqN.url,
      userID := userID, createdAt := now, updatedAt := now, clickCount := 0,
      isActive := true, expiresAt := reqN.expiresAt,
      userAgent := userAgent, ipAddress := clientIP }
  match repoCreate insertStore url with
  | .error _ =>
    ⟨.error (newDatabaseError "Failed to create URL"), insertStore, cache, attempts⟩
  | .ok s' =>
    let resp : CreateURLResponse :=
      { id := url.id, shortCode := code, originalURL := url.originalURL,
        shortURL := baseURL ++ "/" ++ code, isActive := true,
        createdAt := now, expiresAt := url.expiresAt }
    ⟨.ok resp, s', cacheSetURL cache code reqN.url, attempts⟩

/-- `urlService.CreateURL`: validate the request (normalizing the URL),
fetch the user and enforce the link quota, choose a short code (custom
with a pre-insert existence check, or up to 10 generator attempts),
persist, write-through to the cache. -/
def createURL (store : Store) (cache : Cache) (users : Users)
    (rng : Nat → Nat) (interleaved : List URL) (req : CreateURLRequest)
    (userID : Nat) (clientIP userAgent : String) (now : Int)
    (baseURL : String) : CreateOutcome :=
  match req.validate now with
  | .error _ => ⟨.error (newValidationError "Invalid request"), store, cache, 0⟩
  | .ok reqN =>
    match userGetByID users userID with
    | none => ⟨.error (newDatabaseError "Failed to get user"), store, cache, 0⟩
    | some user =>
      if !user.canCreateLink then
        ⟨.error (newValidationError
          ("Link limit exceeded. You can create maximum " ++
            toString user.linkLimit ++ " links")), store, cache, 0⟩
      else if reqN.customCode == "" then
        match generateUniqueShortCode store rng with
        | (none, n) =>
          ⟨.error (newInternalError "Failed to generate short code"), store, cache, n⟩
        | (some code, n) =>
          finishCreate store cache interleaved reqN userID clientIP userAgent
            now baseURL code n
      else if existsByShortCode store reqN.customCode then
        ⟨.error (newAlreadyExistsError "Custom short code already exists"),
          store, cache, 0⟩
      else
        finishCreate store cache interleaved reqN userID clientIP userAgent
          now baseURL reqN.customCode 0

/-! ## UpdateURL and DeleteURL (services/url_service.go) -/

/-- Outcome of `urlService.UpdateURL` / `DeleteURL`. -/
structure UpdateOutcome where
  result : Except AppError URL
  store : Store
  cache : Cache
  deriving Repr

/-- `urlService.UpdateURL`: reject the empty code, validate the patch,
check ownership (`ForbiddenError` otherwise), load the record, apply
only the provided fields while tracking whether a status field changed,
persist, then either evict the cache entry (status changed, or resulting
state inactive/expired) or refresh it with the new target. -/
def updateURL (store : Store) (cache : Cache) (shortCode : String)
    (req : UpdateURLRequest) (userID : Nat) (now : Int) : UpdateOutcome :=
  if shortCode == "" then
    ⟨.error (newValidationError "Short code is required"), store, cache⟩
  else
    match req.validate now with
    | .error _ => ⟨.error (newValidationError "Invalid request"), store, cache⟩
    | .ok reqN =>
      if !checkOwnership store shortCode userID then
        ⟨.error (newForbiddenError "URL not found or access denied"), store, cache⟩
      else
        match getByShortCode store shortCode with
        | none => ⟨.error (newDatabaseError "Failed to get URL"), store, cache⟩
        | some url0 =>
          let url1 :=
            if reqN.originalURL != "" then { url0 with originalURL := reqN.originalURL }
            else url0
          let step2 : URL × Bool :=
            match reqN.isActive with
            | some b => ({ url1 with isActive := b }, url1.isActive != b)
            | none => (url1, false)
          let step3 : URL × Bool :=
            match reqN.expiresAt with
            | some t =>
              let changed :=
                match step2.1.expiresAt with
                | none => true
                | some old => old != t
              ({ step2.1 with expiresAt := some t }, step2.2 || changed)
            | none => step2
          let url4 := { step3.1 with updatedAt := now }
          match repoUpdate store url4 with
          | .error _ => ⟨.error (newDatabaseError "Failed to update URL"), store, cache⟩
          | .ok (updated, s') =>
            if step3.2 || !updated.isActive || updated.isExpired now then
              ⟨.ok updated, s', cacheDeleteURL cache shortCode⟩
            else
              ⟨.ok updated, s', cacheSetURL cache shortCode updated.originalURL⟩

/-- Outcome of `urlService.DeleteURL`. -/
structure DeleteOutcome where
  result : Except AppError Unit
  store : Store
  cache : Cache
  deriving Repr

/-- `urlService.DeleteURL`: reject the empty code, check ownership
(`ForbiddenError` otherwise), evict the cache entry first, then delete
the row. -/
def deleteURL (store : Store) (cache : Cache) (shortCode : String)
    (userID : Nat) : DeleteOutcome :=
  if shortCode == "" then
    ⟨.error (newValidationError "Short code is required"), store, cache⟩
  else if !checkOwnership store shortCode userID then
    ⟨.error (newForbiddenError "URL not found or access denied"), store, cache⟩
  else
    let cache' := cacheDeleteURL cache shortCode
    match deleteByUser store shortCode userID with
    | .error _ => ⟨.error (newDatabaseError "Failed to delete URL"), store, cache'⟩
    | .ok s' => ⟨.ok (), s', cache'⟩

/-! ## Decidability helper -/

instance exceptDecEq {ε α : Type} [DecidableEq ε] [DecidableEq α] :
    DecidableEq (Except ε α) := fun x y =>
  match x, y with
  | .ok a, .ok b =>
    if h : a = b then .isTrue (by rw [h]) else .isFalse (by simp [h])
  | .error a, .error b =>
    if h : a = b then .isTrue (by rw [h]) else .isFalse (by simp [h])
  | .ok _, .error _ => .isFalse (by simp)
  | .error _, .ok _ => .isFalse (by simp)

/-! ## Demo fixtures used by the witnesses -/

/-- A stored link owned by user 1, active, already expired at instant 0. -/
def demoExpiredURL : URL :=
  { id := 1, shortCode := "abc", originalURL := "https://example.com",
    userID := 1, createdAt := -100, updatedAt := -100, clickCount := 0,
    isActive := true, expiresAt := some (-10), userAgent := "ua",
    ipAddress := "127.0.0.1" }

/-- A stored link owned by user 1, both expired and inactive. -/
def demoExpiredInactiveURL : URL :=
  { demoExpiredURL with isActive := false }

/-- A stored link owned by user 1, active, with no expiry. -/
def demoLiveURL : URL :=
  { id := 2, shortCode := "abc", originalURL := "https://example.com",
    userID := 1, createdAt := -100, updatedAt := -100, clickCount := 0,
    isActive := true, expiresAt := none, userAgent := "ua",
    ipAddress := "127.0.0.1" }

/-- A user with room under their link quota. -/
def demoUser : User :=
  { id := 1, email := "a@b.c", isActive := true, linkCount := 0, linkLimit := 10 }

/-- A user exactly at their link quota. -/
def demoFullUser : User :=
  { id := 1, email := "a@b.c", isActive := true, linkCount := 10, linkLimit := 10 }

/-- A warm cache entry for code `abc`. -/
def demoCache : Cache := [("url:abc", "https://example.com")]

/-! ## C2 -/

/-- C2: for every short code whose stored record has `expiresAt` in the
past, `GetURL` returns `ExpiredError` regardless of the cache contents,
and the cache entry for the code has been deleted when the call
returns. -/
theorem getURL_expired_evicts (store : Store) (cache : Cache) (now : Int)
    (code : String) (r : URL) (e : Int) (hcode : code ≠ "")
    (hr : getByShortCode store code = some r) (he : r.expiresAt = some e)
    (hpast : e < now) :
    (getURL store cache now code).result =
        .error (newExpiredError "URL has expired") ∧
    cacheGetURL (getURL store cache now code).cache code = none := by
  have hexp : r.isExpired now = true := by
    simp [URL.isExpired, he, hpast]
  simp [getURL, hcode, hr, hexp, cacheGetURL_cacheDeleteURL]

/-- Witness for C2 on a concrete expired record and a warm cache. -/
theorem getURL_expired_evicts_witness :
    ("abc" : String) ≠ "" ∧
    getByShortCode [demoExpiredURL] "abc" = some demoExpiredURL ∧
    demoExpiredURL.expiresAt = some (-10) ∧ (-10 : Int) < 0 ∧
    ((getURL [demoExpiredURL] demoCache 0 "abc").result =
        .error (newExpiredError "URL has expired") ∧
      cacheGetURL (getURL [demoExpiredURL] demoCache 0 "abc").cache "abc" = none) :=
  ⟨by decide, by rfl, by rfl, by decide,
    getURL_expired_evicts [demoExpiredURL] demoCache 0 "abc" demoExpiredURL (-10)
      (by decide) (by rfl) (by rfl) (by decide)⟩

/-! ## C9 -/

/-- C9: on a record that is simultaneously expired and inactive,
`GetURL` returns `ExpiredError`, not `InactiveError`: the expiry check
runs before the activity check. -/
theorem getURL_expired_precedence (store : Store) (cache : Cache) (now : Int)
    (code : String) (r : URL) (e : Int) (hcode : code ≠ "")
    (hr : getByShortCode store code = some r) (he : r.expiresAt = some e)
    (hpast : e < now) (hina : r.isActive = false) :
    (getURL store cache now code).result =
        .error (newExpiredError "URL has expired") ∧
    (getURL store cache now code).result ≠
        .error (newInactiveError "URL is not active") := by
  have hexp : r.isExpired now = true := by
    simp [URL.isExpired, he, hpast]
  constructor
  · simp [getURL, hcode, hr, hexp]
  · simp [getURL, hcode, hr, hexp, newExpiredError, newInactiveError]

/-- Witness for C9 on a concrete expired-and-inactive record. -/
theorem getURL_expired_precedence_witness :
    ("abc" : String) ≠ "" ∧
    getByShortCode [demoExpiredInactiveURL] "abc" = some demoExpiredInactiveURL ∧
    demoExpiredInactiveURL.expiresAt = some (-10) ∧ (-10 : Int) < 0 ∧
    demoExpiredInactiveURL.isActive = false ∧
    ((getURL [demoExpiredInactiveURL] demoCache 0 "abc").result =
        .error (newExpiredError "URL has expired") ∧
      (getURL [demoExpiredInactiveURL] demoCache 0 "abc").result ≠
        .error (newInactiveError "URL is not active")) :=
  ⟨by decide, by rfl, by rfl, by decide, by rfl,
    getURL_expired_precedence [demoExpiredInactiveURL] demoCache 0 "abc"
      demoExpiredInactiveURL (-10) (by decide) (by rfl) (by rfl) (by decide) (by rfl)⟩

/-! ## C1 -/

/-- C1 (amended): when the short code exists but belongs to a different
owner, `UpdateURL` and `DeleteURL` both return the internally raised
`ForbiddenError`, and `handleError` surfaces it to the caller unchanged:
HTTP status 403 with code `FORBIDDEN`.  Only the error *message*
("URL not found or access denied") blurs existence; the error class and
status are not converted to `NotFoundError`/404. -/
theorem wrongOwner_forbidden_roundtrip (store : Store) (cache : Cache)
    (code : String) (userID : Nat) (req reqN : UpdateURLRequest) (now : Int)
    (hcode : code ≠ "") (hexists : existsByShortCode store code = true)
    (howned : checkOwnership store code userID = false)
    (hval : req.validate now = .ok reqN) :
    (updateURL store cache code req userID now).result =
        .error (newForbiddenError "URL not found or access denied") ∧
    (deleteURL store cache code userID).result =
        .error (newForbiddenError "URL not found or access denied") ∧
    handleError (newForbiddenError "URL not found or access denied") =
        ⟨403, .forbidden, "URL not found or access denied"⟩ := by
  refine ⟨?_, ?_, rfl⟩
  · simp [updateURL, hcode, hval, howned]
  · simp [deleteURL, hcode, howned]

/-- Witness for C1 (amended): user 2 updating/deleting user 1's link. -/
theorem wrongOwner_forbidden_roundtrip_witness :
    ("abc" : String) ≠ "" ∧
    existsByShortCode [demoLiveURL] "abc" = true ∧
    checkOwnership [demoLiveURL] "abc" 2 = false ∧
    UpdateURLRequest.validate ⟨"", none, none⟩ 0 = .ok ⟨"", none, none⟩ ∧
    ((updateURL [demoLiveURL] demoCache "abc" ⟨"", none, none⟩ 2 0).result =
        .error (newForbiddenError "URL not found or access denied") ∧
      (deleteURL [demoLiveURL] demoCache "abc" 2).result =
        .error (newForbiddenError "URL not found or access denied") ∧
      handleError (newForbiddenError "URL not found or access denied") =
        ⟨403, .forbidden, "URL not found or access denied"⟩) :=
  ⟨by decide, by rfl, by rfl, by rfl,
    wrongOwner_forbidden_roundtrip [demoLiveURL] demoCache "abc" 2
      ⟨"", none, none⟩ ⟨"", none, none⟩ 0 (by decide) (by rfl) (by rfl) (by rfl)⟩

/-- Counterexample to C1 as stated: at a concrete wrong-owner delete,
the error the caller receives is the 403 `FORBIDDEN` error, whose class
and status differ from `NotFoundError`'s 404. -/
theorem wrongOwner_forbidden_not_notFound_cex :
    (deleteURL [demoLiveURL] demoCache "abc" 2).result =
        .error (newForbiddenError "URL not found or access denied") ∧
    (handleError (newForbiddenError "URL not found or access denied")).status = 403 ∧
    (handleError (newForbiddenError "URL not found or access denied")).code =
        ErrCode.forbidden ∧
    (newForbiddenError "URL not found or access denied").code ≠ ErrCode.notFound ∧
    (handleError (newForbiddenError "URL not found or access denied")).status ≠ 404 := by
  refine ⟨by rfl, by rfl, by rfl, by decide, by decide⟩

/-! ## C6 -/

/-- C6: a `CreateURL` call by an owner at or above their link limit
fails with `ValidationError`; the store is untouched (no insert) and no
generator attempt is made, so the quota check precedes any code
allocation. -/
theorem createURL_quota_validation_error (store : Store) (cache : Cache)
    (users : Users) (rng : Nat → Nat) (interleaved : List URL)
    (req reqN : CreateURLRequest) (userID : Nat) (clientIP userAgent : String)
    (now : Int) (baseURL : String) (user : User)
    (hval : req.validate now = .ok reqN)
    (huser : userGetByID users userID = some user)
    (hquota : user.linkLimit ≤ user.linkCount) :
    (createURL store cache users rng interleaved req userID clientIP userAgent
        now baseURL).result =
      .error (newValidationError
        ("Link limit exceeded. You can create maximum " ++
          toString user.linkLimit ++ " links")) ∧
    (createURL store cache users rng interleaved req userID clientIP userAgent
        now baseURL).store = store ∧
    (createURL store cache users rng interleaved req userID clientIP userAgent
        now baseURL).genAttempts = 0 := by
  have hcan : user.canCreateLink = false := by
    simp [User.canCreateLink]
    omega
  simp [createURL, hval, huser, hcan]

/-- Witness for C6: a user with `linkCount = linkLimit = 10`. -/
theorem createURL_quota_validation_error_witness :
    CreateURLRequest.validate ⟨"https://example.com", "", none⟩ 0 =
        .ok ⟨"https://example.com", "", none⟩ ∧
    userGetByID [demoFullUser] 1 = some demoFullUser ∧
    demoFullUser.linkLimit ≤ demoFullUser.linkCount ∧
    ((createURL [] demoCache [demoFullUser] (fun _ => 0) []
        ⟨"https://example.com", "", none⟩ 1 "ip" "ua" 0 "http://short.ly").result =
      .error (newValidationError
        ("Link limit exceeded. You can create maximum " ++
          toString demoFullUser.linkLimit ++ " links")) ∧
    (createURL [] demoCache [demoFullUser] (fun _ => 0) []
        ⟨"https://example.com", "", none⟩ 1 "ip" "ua" 0 "http://short.ly").store = [] ∧
    (createURL [] demoCache [demoFullUser] (fun _ => 0) []
        ⟨"https://example.com", "", none⟩ 1 "ip" "ua" 0 "http://short.ly").genAttempts = 0) :=
  ⟨by rfl, by rfl, by decide,
    createURL_quota_validation_error [] demoCache [demoFullUser] (fun _ => 0) []
      ⟨"https://example.com", "", none⟩ ⟨"https://example.com", "", none⟩
      1 "ip" "ua" 0 "http://short.ly" demoFullUser (by rfl) (by rfl) (by decide)⟩

/-! ## C4 -/

/-- When every candidate the generator produces from attempt `i` on is
reported present in the store, the attempt loop exhausts all its
remaining attempts and reports how many it used. -/
theorem generateUniqueShortCodeAux_all_exist (store : Store) (rng : Nat → Nat) :
    ∀ (n i : Nat),
      (∀ k, k < n → existsByShortCode store
          (generateShortCode fun j => rng (8 * (i + k) + j)) = true) →
      generateUniqueShortCodeAux store rng i n = (none, n) := by
  intro n
  induction n with
  | zero => intro i _; rfl
  | succ m ih =>
    intro i h
    have h0 : existsByShortCode store
        (generateShortCode fun j => rng (8 * i + j)) = true := by
      have := h 0 (Nat.succ_pos m)
      simpa using this
    have hrec : generateUniqueShortCodeAux store rng (i + 1) m = (none, m) := by
      apply ih
      intro k hk
      have := h (k + 1) (Nat.succ_lt_succ hk)
      have harith : i + (k + 1) = i + 1 + k := by omega
      simpa [harith] using this
    simp [generateUniqueShortCodeAux, h0, hrec]

/-- C4: with no custom code and a store that reports every generated
candidate as already existing, `CreateURL` fails with `InternalError`
after exactly 10 generation attempts and inserts nothing. -/
theorem createURL_generation_exhaustion (store : Store) (cache : Cache)
    (users : Users) (rng : Nat → Nat) (interleaved : List URL)
    (req reqN : CreateURLRequest) (userID : Nat) (clientIP userAgent : String)
    (now : Int) (baseURL : String) (user : User)
    (hval : req.validate now = .ok reqN)
    (hcustom : reqN.customCode = "")
    (huser : userGetByID users userID = some user)
    (hquota : user.canCreateLink = true)
    (hall : ∀ k, k < 10 → existsByShortCode store
        (generateShortCode fun j => rng (8 * k + j)) = true) :
    (createURL store cache users rng interleaved req userID clientIP userAgent
        now baseURL).result =
      .error (newInternalError "Failed to generate short code") ∧
    (createURL store cache users rng interleaved req userID clientIP userAgent
        now baseURL).store = store ∧
    (createURL store cache users rng interleaved req userID clientIP userAgent
        now baseURL).genAttempts = 10 := by
  have hgen : generateUniqueShortCode store rng = (none, 10) := by
    unfold generateUniqueShortCode
    apply generateUniqueShortCodeAux_all_exist
    intro k hk
    simpa using hall k hk
  simp [createURL, hval, huser, hquota, hcustom, hgen]

/-- Witness for C4: a constant-zero byte stream makes every candidate
`"aaaaaaaa"`, and the store holds that code. -/
theorem createURL_generation_exhaustion_witness :
    CreateURLRequest.validate ⟨"https://example.com", "", none⟩ 0 =
        .ok ⟨"https://example.com", "", none⟩ ∧
    (⟨"https://example.com", "", none⟩ : CreateURLRequest).customCode = "" ∧
    userGetByID [demoUser] 1 = some demoUser ∧
    demoUser.canCreateLink = true ∧
    (∀ k, k < 10 → existsByShortCode [{ demoLiveURL with shortCode := "aaaaaaaa" }]
        (generateShortCode fun j => (fun _ => 0) (8 * k + j)) = true) ∧
    ((createURL [{ demoLiveURL with shortCode := "aaaaaaaa" }] demoCache [demoUser]
        (fun _ => 0) [] ⟨"https://example.com", "", none⟩ 1 "ip" "ua" 0
        "http://short.ly").result =
      .error (newInternalError "Failed to generate short code") ∧
    (createURL [{ demoLiveURL with shortCode := "aaaaaaaa" }] demoCache [demoUser]
        (fun _ => 0) [] ⟨"https://example.com", "", none⟩ 1 "ip" "ua" 0
        "http://short.ly").store = [{ demoLiveURL with shortCode := "aaaaaaaa" }] ∧
    (createURL [{ demoLiveURL with shortCode := "aaaaaaaa" }] demoCache [demoUser]
        (fun _ => 0) [] ⟨"https://example.com", "", none⟩ 1 "ip" "ua" 0
        "http://short.ly").genAttempts = 10) :=
  ⟨by rfl, by rfl, by rfl, by decide, by decide,
    createURL_generation_exhaustion [{ demoLiveURL with shortCode := "aaaaaaaa" }]
      demoCache [demoUser] (fun _ => 0) [] ⟨"https://example.com", "", none⟩
      ⟨"https://example.com", "", none⟩ 1 "ip" "ua" 0 "http://short.ly" demoUser
      (by rfl) (by rfl) (by rfl) (by decide) (by decide)⟩

/-! ## C5 -/

/-- C5 (amended): when a `CreateURL` insert hits the store's uniqueness
constraint (the code was committed by a concurrent writer between the
existence check and the insert), the service reports `DatabaseError`
(500-class) — for a custom code as much as for a generated one — and
performs no further generation attempt.  `AlreadyExistsError` is
produced only by the pre-insert existence check. -/
theorem createURL_insert_conflict_database_error (store : Store) (cache : Cache)
    (users : Users) (rng : Nat → Nat) (interleaved : List URL)
    (req reqN : CreateURLRequest) (userID : Nat) (clientIP userAgent : String)
    (now : Int) (baseURL : String) (user : User) (code : String) (n : Nat)
    (hval : req.validate now = .ok reqN)
    (huser : userGetByID users userID = some user)
    (hquota : user.canCreateLink = true)
    (hsel : (reqN.customCode = "" ∧
              generateUniqueShortCode store rng = (some code, n)) ∨
            (reqN.customCode = code ∧ code ≠ "" ∧
              existsByShortCode store code = false ∧ n = 0))
    (hins : existsByShortCode (store ++ interleaved) code = true) :
    (createURL store cache users rng interleaved req userID clientIP userAgent
        now baseURL).result =
      .error (newDatabaseError "Failed to create URL") ∧
    (createURL store cache users rng interleaved req userID clientIP userAgent
        now baseURL).store = store ++ interleaved ∧
    (createURL store cache users rng interleaved req userID clientIP userAgent
        now baseURL).genAttempts = n := by
  rcases hsel with ⟨hc, hgen⟩ | ⟨hc, hne, hnex, hn0⟩
  · simp [createURL, hval, huser, hquota, hc, hgen, finishCreate, repoCreate, hins]
  · subst hn0
    have hcne : (reqN.customCode == "") = false := by
      rw [hc]
      exact beq_eq_false_iff_ne.mpr hne
    simp [createURL, hval, huser, hquota, hcne, hc, hne, hnex, finishCreate,
      repoCreate, hins]

/-- Witness for C5 (amended), custom-code branch: the code is free at
check time but committed by a concurrent writer before the insert. -/
theorem createURL_insert_conflict_database_error_witness :
    CreateURLRequest.validate ⟨"https://example.com", "abc", none⟩ 0 =
        .ok ⟨"https://example.com", "abc", none⟩ ∧
    userGetByID [demoUser] 1 = some demoUser ∧
    demoUser.canCreateLink = true ∧
    ((⟨"https://example.com", "abc", none⟩ : CreateURLRequest).customCode = "abc" ∧
      ("abc" : String) ≠ "" ∧ existsByShortCode [] "abc" = false ∧ (0 : Nat) = 0) ∧
    existsByShortCode ([] ++ [demoLiveURL]) "abc" = true ∧
    ((createURL [] demoCache [demoUser] (fun _ => 0) [demoLiveURL]
        ⟨"https://example.com", "abc", none⟩ 1 "ip" "ua" 0 "http://short.ly").result =
      .error (newDatabaseError "Failed to create URL") ∧
    (createURL [] demoCache [demoUser] (fun _ => 0) [demoLiveURL]
        ⟨"https://example.com", "abc", none⟩ 1 "ip" "ua" 0 "http://short.ly").store =
      [] ++ [demoLiveURL] ∧
    (createURL [] demoCache [demoUser] (fun _ => 0) [demoLiveURL]
        ⟨"https://example.com", "abc", none⟩ 1 "ip" "ua" 0 "http://short.ly").genAttempts
      = 0) :=
  ⟨by rfl, by rfl, by decide, ⟨by rfl, by decide, by rfl, rfl⟩, by rfl,
    createURL_insert_conflict_database_error [] demoCache [demoUser] (fun _ => 0)
      [demoLiveURL] ⟨"https://example.com", "abc", none⟩
      ⟨"https://example.com", "abc", none⟩ 1 "ip" "ua" 0 "http://short.ly" demoUser
      "abc" 0 (by rfl) (by rfl) (by decide)
      (Or.inr ⟨by rfl, by decide, by rfl, rfl⟩) (by rfl)⟩

/-- Counterexample to C5 as stated: at a concrete insert-time collision
on the custom code `abc`, the surfaced error is `DatabaseError`, not
`AlreadyExistsError`. -/
theorem createURL_insert_conflict_cex :
    (createURL [] demoCache [demoUser] (fun _ => 0) [demoLiveURL]
        ⟨"https://example.com", "abc", none⟩ 1 "ip" "ua" 0 "http://short.ly").result =
      .error (newDatabaseError "Failed to create URL") ∧
    (createURL [] demoCache [demoUser] (fun _ => 0) [demoLiveURL]
        ⟨"https://example.com", "abc", none⟩ 1 "ip" "ua" 0 "http://short.ly").result ≠
      .error (newAlreadyExistsError "Custom short code already exists") ∧
    (newDatabaseError "Failed to create URL").code ≠ ErrCode.alreadyExists := by
  refine ⟨by rfl, by decide, by decide⟩

/-! ## C7 -/

/-- C7 (amended): the generator always returns a string of exactly 8
characters drawn from the alphabet `[a-zA-Z0-9]`.  (The per-position
distribution, however, is not uniform: see the modulo-bias
counterexample.) -/
theorem generateShortCode_length_alphabet (bytes : Nat → Nat) :
    (generateShortCode bytes).length = 8 ∧
    ∀ c ∈ (generateShortCode bytes).data, c ∈ charset := by
  constructor
  · simp [generateShortCode, String.length]
  · intro c hc
    simp only [generateShortCode, List.mem_map] at hc
    obtain ⟨i, _, rfl⟩ := hc
    have hpos : 0 < charset.length := by decide
    have hlt : randomInt (bytes i) charset.length < charset.length :=
      Nat.mod_lt _ hpos
    have hget : charset.getD (randomInt (bytes i) charset.length) 'a' =
        charset.get ⟨randomInt (bytes i) charset.length, hlt⟩ := by
      rw [List.getD_eq_getElem?_getD, List.getElem?_eq_getElem hlt]
      rfl
    rw [hget]
    exact List.get_mem charset _ hlt

set_option maxRecDepth 4096

/-- Counterexample to C7's uniformity: `randomInt` reduces one byte
modulo 62, and 256 is not a multiple of 62, so alphabet index 0 (the
character `a`) is produced by 5 of the 256 byte values while index 61
(the character `9`) is produced by only 4 — the positions are not
equally likely under uniformly random bytes. -/
theorem randomInt_modulo_bias_cex :
    ((List.range 256).filter fun b => randomInt b 62 == 0).length = 5 ∧
    ((List.range 256).filter fun b => randomInt b 62 == 61).length = 4 := by
  constructor <;> decide

/-! ## UpdateURL helper lemmas -/

/-- `UpdateURLRequest.Validate` only rewrites the target URL: the
`isActive` and `expiresAt` fields pass through unchanged. -/
theorem updValidate_fields (req r : UpdateURLRequest) (now : Int)
    (h : UpdateURLRequest.validate req now = .ok r) :
    r.isActive = req.isActive ∧ r.expiresAt = req.expiresAt := by
  unfold UpdateURLRequest.validate at h
  dsimp only at h
  by_cases h1 : (req.originalURL == "") = true
  · rw [if_pos h1] at h
    dsimp only at h
    cases he : req.expiresAt with
    | none =>
      rw [he] at h
      dsimp only at h
      obtain rfl := Except.ok.inj h
      exact ⟨rfl, he⟩
    | some e =>
      rw [he] at h
      dsimp only at h
      by_cases h2 : e < now
      · rw [if_pos h2] at h
        exact absurd h (by simp)
      · rw [if_neg h2] at h
        obtain rfl := Except.ok.inj h
        exact ⟨rfl, he⟩
  · rw [if_neg h1] at h
    by_cases h3 : (hostOf (normalizeURL req.originalURL) == "") = true
    · rw [if_pos h3] at h
      exact absurd h (by simp)
    · rw [if_neg h3] at h
      dsimp only at h
      cases he : req.expiresAt with
      | none =>
        rw [he] at h
        dsimp only at h
        obtain rfl := Except.ok.inj h
        exact ⟨rfl, rfl⟩
      | some e =>
        rw [he] at h
        dsimp only at h
        by_cases h2 : e < now
        · rw [if_pos h2] at h
          exact absurd h (by simp)
        · rw [if_neg h2] at h
          obtain rfl := Except.ok.inj h
          exact ⟨rfl, rfl⟩

theorem find?_congr_fn {α : Type} (p q : α → Bool) (l : List α)
    (h : ∀ a, p a = q a) : l.find? p = l.find? q := by
  induction l with
  | nil => rfl
  | cons a t ih => simp [List.find?_cons, h a, ih]

/-- Looking up a code after `repoUpdate`'s row rewrite returns the old
row with the four updated columns replaced. -/
theorem getByShortCode_after_update (s : Store) (v : URL) (code : String)
    (u0 : URL) (hget : getByShortCode s code = some u0)
    (hcode : v.shortCode = u0.shortCode) :
    getByShortCode (s.map fun r =>
        if r.shortCode == v.shortCode then
          { r with originalURL := v.originalURL, isActive := v.isActive,
                   expiresAt := v.expiresAt, updatedAt := v.updatedAt }
        else r) code =
      some { u0 with originalURL := v.originalURL, isActive := v.isActive,
                     expiresAt := v.expiresAt, updatedAt := v.updatedAt } := by
  unfold getByShortCode at hget ⊢
  rw [List.find?_map]
  have hfix : ∀ r : URL,
      ((fun x => x.shortCode == code) ∘ fun r =>
        if r.shortCode == v.shortCode then
          { r with originalURL := v.originalURL, isActive := v.isActive,
                   expiresAt := v.expiresAt, updatedAt := v.updatedAt }
        else r) r = (r.shortCode == code) := by
    intro r
    by_cases h : r.shortCode = v.shortCode <;> simp [h]
  rw [find?_congr_fn _ _ _ hfix, hget]
  have hself : (u0.shortCode == v.shortCode) = true := by
    rw [hcode]
    exact beq_self_eq_true _
  simp only [Option.map_some']
  rw [if_pos hself]

/-- A successful `getByShortCode` implies the code is reported present. -/
theorem existsByShortCode_of_getByShortCode (s : Store) (code : String)
    (u0 : URL) (hget : getByShortCode s code = some u0) :
    existsByShortCode s u0.shortCode = true := by
  have hmem : u0 ∈ s := List.mem_of_find?_eq_some hget
  unfold existsByShortCode
  rw [List.any_eq_true]
  exact ⟨u0, hmem, beq_self_eq_true _⟩

/-- Reading back a code after the row rewrite `repoUpdate` performs,
keyed on the written record `w` (whose code matches the looked-up
row). -/
theorem getByShortCode_map_update (s : Store) (code : String) (u0 w : URL)
    (hget : getByShortCode s code = some u0) (hcode : w.shortCode = u0.shortCode) :
    getByShortCode (s.map fun r =>
        if r.shortCode == w.shortCode then
          { r with originalURL := w.originalURL, isActive := w.isActive,
                   expiresAt := w.expiresAt, updatedAt := w.updatedAt }
        else r) code =
      some { u0 with originalURL := w.originalURL, isActive := w.isActive,
                     expiresAt := w.expiresAt, updatedAt := w.updatedAt } :=
  getByShortCode_after_update s w code u0 hget hcode

/-- Inversion of a successful `UpdateURL`: the call got past every
error branch, and the returned record's fields, the resulting store,
and the eviction behaviour of the cache are characterized. -/
theorem updateURL_ok_inversion (store : Store) (cache : Cache) (code : String)
    (req : UpdateURLRequest) (userID : Nat) (now : Int) (u : URL)
    (hok : (updateURL store cache code req userID now).result = .ok u) :
    ∃ reqN url0,
      req.validate now = .ok reqN ∧
      getByShortCode store code = some url0 ∧
      u.shortCode = url0.shortCode ∧
      u.isActive = reqN.isActive.getD url0.isActive ∧
      u.expiresAt = (match reqN.expiresAt with
        | some t => some t
        | none => url0.expiresAt) ∧
      (updateURL store cache code req userID now).store =
        store.map (fun r =>
          if r.shortCode == u.shortCode then
            { r with originalURL := u.originalURL, isActive := u.isActive,
                     expiresAt := u.expiresAt, updatedAt := u.updatedAt }
          else r) ∧
      (u.isActive = false ∨ u.isExpired now = true →
        (updateURL store cache code req userID now).cache =
          cacheDeleteURL cache code) := by
  obtain ⟨X, hX⟩ : ∃ X, updateURL store cache code req userID now = X := ⟨_, rfl⟩
  rw [hX] at hok ⊢
  unfold updateURL at hX
  by_cases hc : (code == "") = true
  · rw [if_pos hc] at hX
    rw [← hX] at hok
    exact absurd hok (by simp)
  rw [if_neg hc] at hX
  cases hv : req.validate now with
  | error msg =>
    rw [hv] at hX
    rw [← hX] at hok
    exact absurd hok (by simp)
  | ok reqN =>
    rw [hv] at hX
    dsimp only at hX
    by_cases how : (!checkOwnership store code userID) = true
    · rw [if_pos how] at hX
      rw [← hX] at hok
      exact absurd hok (by simp)
    rw [if_neg how] at hX
    cases hget : getByShortCode store code with
    | none =>
      rw [hget] at hX
      rw [← hX] at hok
      exact absurd hok (by simp)
    | some url0 =>
      rw [hget] at hX
      dsimp only at hX
      have hex : existsByShortCode store url0.shortCode = true :=
        existsByShortCode_of_getByShortCode store code url0 hget
      refine ⟨reqN, url0, rfl, rfl, ?_⟩
      by_cases horig : (reqN.originalURL != "") = true
      all_goals first
        | rw [if_pos horig] at hX
        | rw [if_neg horig] at hX
      all_goals cases hact : reqN.isActive
      all_goals rw [hact] at hX
      all_goals cases hexpN : reqN.expiresAt
      all_goals rw [hexpN] at hX
      all_goals dsimp only at hX
      all_goals unfold repoUpdate at hX
      all_goals dsimp only at hX
      all_goals rw [if_pos hex] at hX
      all_goals dsimp only at hX
      all_goals rw [← hX] at hok
      all_goals rw [apply_ite UpdateOutcome.result] at hok
      all_goals dsimp only at hok
      all_goals rw [ite_self] at hok
      all_goals obtain rfl := Except.ok.inj hok
      all_goals refine ⟨rfl, rfl, rfl, ?_, ?_⟩
      all_goals first
        | (intro hdead
           rw [← hX, apply_ite UpdateOutcome.cache]
           dsimp only
           split
           · rfl
           · rename_i hcond
             rcases hdead with h | h <;> (try dsimp only at h) <;>
               simp [h] at hcond)
        | (rw [← hX, apply_ite UpdateOutcome.store]
           dsimp only
           rw [ite_self])

/-- A successful `UpdateURL` implies the short code was non-empty. -/
theorem updateURL_ok_code_ne (store : Store) (cache : Cache) (code : String)
    (req : UpdateURLRequest) (userID : Nat) (now : Int) (u : URL)
    (hok : (updateURL store cache code req userID now).result = .ok u) :
    (code == "") = false := by
  by_cases hc : (code == "") = true
  · exfalso
    unfold updateURL at hok
    rw [if_pos hc] at hok
    exact absurd hok (by simp)
  · exact Bool.not_eq_true _ ▸ eq_false_of_ne_true hc

/-! ## C3 -/

/-- C3 (amended): after a successful `UpdateURL` that sets `active` to
false, the cache entry for the code has been evicted, and a subsequent
`GetURL` — reading the store, never the cache, for the decision —
returns `InactiveError` provided the link is not also expired at the
later read (an expired link yields `ExpiredError` instead, since the
expiry check precedes the activity check). -/
theorem updateURL_deactivate_evicts_then_inactive (store : Store) (cache : Cache)
    (code : String) (req : UpdateURLRequest) (userID : Nat) (now nowLater : Int)
    (u : URL) (hreq : req.isActive = some false)
    (hok : (updateURL store cache code req userID now).result = .ok u)
    (hnexp : u.isExpired nowLater = false) :
    cacheGetURL (updateURL store cache code req userID now).cache code = none ∧
    (getURL (updateURL store cache code req userID now).store
        (updateURL store cache code req userID now).cache nowLater code).result =
      .error (newInactiveError "URL is not active") := by
  obtain ⟨reqN, url0, hv, hget, hsc, hia, hexp, hst, hcache⟩ :=
    updateURL_ok_inversion store cache code req userID now u hok
  have hcode : (code == "") = false :=
    updateURL_ok_code_ne store cache code req userID now u hok
  have hact : reqN.isActive = some false := by
    rw [(updValidate_fields req reqN now hv).1, hreq]
  have huIA : u.isActive = false := by
    rw [hia, hact]
    rfl
  have hcache2 := hcache (Or.inl huIA)
  refine ⟨?_, ?_⟩
  · rw [hcache2]
    exact cacheGetURL_cacheDeleteURL cache code
  · rw [hst]
    have hlook := getByShortCode_after_update store u code url0 hget hsc
    have hrecExp : ({ url0 with
        originalURL := u.originalURL,
        isActive := u.isActive,
        expiresAt := u.expiresAt,
        updatedAt := u.updatedAt } : URL).isExpired nowLater = false := hnexp
    simp only [beq_iff_eq, huIA] at hlook hrecExp
    simp [getURL, hcode, hlook, hrecExp, huIA]

/-- Witness for C3 (amended): deactivating a live, never-expiring link
evicts its cache entry and makes the next lookup return
`InactiveError`. -/
theorem updateURL_deactivate_evicts_then_inactive_witness :
    (⟨"", some false, none⟩ : UpdateURLRequest).isActive = some false ∧
    (updateURL [demoLiveURL] demoCache "abc" ⟨"", some false, none⟩ 1 0).result =
      .ok { demoLiveURL with isActive := false, updatedAt := 0 } ∧
    ({ demoLiveURL with isActive := false, updatedAt := 0 } : URL).isExpired 0 =
      false ∧
    (cacheGetURL
        (updateURL [demoLiveURL] demoCache "abc" ⟨"", some false, none⟩ 1 0).cache
        "abc" = none ∧
      (getURL (updateURL [demoLiveURL] demoCache "abc" ⟨"", some false, none⟩ 1 0).store
          (updateURL [demoLiveURL] demoCache "abc" ⟨"", some false, none⟩ 1 0).cache
          0 "abc").result = .error (newInactiveError "URL is not active")) :=
  ⟨rfl, by rfl, by rfl,
    updateURL_deactivate_evicts_then_inactive [demoLiveURL] demoCache "abc"
      ⟨"", some false, none⟩ 1 0 0 { demoLiveURL with isActive := false, updatedAt := 0 }
      rfl (by rfl) (by rfl)⟩

/-- Counterexample to C3 as stated: deactivating a link that is already
expired succeeds, but the subsequent `GetURL` returns `ExpiredError`,
not `InactiveError`. -/
theorem updateURL_deactivate_expired_cex :
    (updateURL [demoExpiredURL] demoCache "abc" ⟨"", some false, none⟩ 1 0).result =
      .ok { demoExpiredURL with isActive := false, updatedAt := 0 } ∧
    (getURL (updateURL [demoExpiredURL] demoCache "abc" ⟨"", some false, none⟩ 1 0).store
        (updateURL [demoExpiredURL] demoCache "abc" ⟨"", some false, none⟩ 1 0).cache
        0 "abc").result = .error (newExpiredError "URL has expired") ∧
    (getURL (updateURL [demoExpiredURL] demoCache "abc" ⟨"", some false, none⟩ 1 0).store
        (updateURL [demoExpiredURL] demoCache "abc" ⟨"", some false, none⟩ 1 0).cache
        0 "abc").result ≠ .error (newInactiveError "URL is not active") :=
  ⟨by rfl, by rfl, by decide⟩

/-! ## C10 -/

/-- C10: an `UpdateURL` patch that omits `expiresAt` leaves the stored
expiry unchanged (in the returned record and in the store), and since a
provided `expiresAt` always sets a concrete instant, no update request
can clear an existing expiry. -/
theorem updateURL_expiresAt_frame (store : Store) (cache : Cache) (code : String)
    (req : UpdateURLRequest) (userID : Nat) (now : Int) (u r0 : URL)
    (hold : getByShortCode store code = some r0)
    (hok : (updateURL store cache code req userID now).result = .ok u) :
    u.expiresAt = (match req.expiresAt with
      | some t => some t
      | none => r0.expiresAt) ∧
    (∀ r', getByShortCode (updateURL store cache code req userID now).store code =
        some r' →
      r'.expiresAt = (match req.expiresAt with
        | some t => some t
        | none => r0.expiresAt)) ∧
    (req.expiresAt = none → u.expiresAt = r0.expiresAt) ∧
    (r0.expiresAt ≠ none → u.expiresAt ≠ none) := by
  obtain ⟨reqN, url0, hv, hget, hsc, hia, hexp, hst, hcache⟩ :=
    updateURL_ok_inversion store cache code req userID now u hok
  rw [hold] at hget
  obtain rfl := Option.some.inj hget
  have hfields := updValidate_fields req reqN now hv
  rw [hfields.2] at hexp
  have hmain : u.expiresAt = (match req.expiresAt with
      | some t => some t
      | none => r0.expiresAt) := hexp
  refine ⟨hmain, ?_, ?_, ?_⟩
  · intro r' hr'
    rw [hst, getByShortCode_after_update store u code r0 hold hsc] at hr'
    obtain rfl := Option.some.inj hr'
    exact hmain
  · intro hnone
    rw [hnone] at hmain
    exact hmain
  · intro hne
    rw [hmain]
    cases hre : req.expiresAt with
    | none => simpa using hne
    | some t => simp

/-- Witness for C10: an empty patch on a link with an expiry set leaves
the expiry untouched. -/
theorem updateURL_expiresAt_frame_witness :
    getByShortCode [demoExpiredURL] "abc" = some demoExpiredURL ∧
    (updateURL [demoExpiredURL] demoCache "abc" ⟨"", none, none⟩ 1 0).result =
      .ok { demoExpiredURL with updatedAt := 0 } ∧
    (({ demoExpiredURL with updatedAt := 0 } : URL).expiresAt =
        (match (⟨"", none, none⟩ : UpdateURLRequest).expiresAt with
          | some t => some t
          | none => demoExpiredURL.expiresAt) ∧
      (∀ r', getByShortCode
          (updateURL [demoExpiredURL] demoCache "abc" ⟨"", none, none⟩ 1 0).store
          "abc" = some r' →
        r'.expiresAt =
          (match (⟨"", none, none⟩ : UpdateURLRequest).expiresAt with
            | some t => some t
            | none => demoExpiredURL.expiresAt)) ∧
      ((⟨"", none, none⟩ : UpdateURLRequest).expiresAt = none →
        ({ demoExpiredURL with updatedAt := 0 } : URL).expiresAt =
          demoExpiredURL.expiresAt) ∧
      (demoExpiredURL.expiresAt ≠ none →
        ({ demoExpiredURL with updatedAt := 0 } : URL).expiresAt ≠ none)) :=
  ⟨by rfl, by rfl,
    updateURL_expiresAt_frame [demoExpiredURL] demoCache "abc" ⟨"", none, none⟩ 1 0
      { demoExpiredURL with updatedAt := 0 } demoExpiredURL (by rfl) (by rfl)⟩

/-! ## Trim lemmas for C8 -/

theorem dropWhile_idem (p : Char → Bool) (l : List Char) :
    List.dropWhile p (List.dropWhile p l) = List.dropWhile p l := by
  induction l with
  | nil => rfl
  | cons a t ih =>
    rw [List.dropWhile_cons]
    by_cases h : p a = true
    · rw [if_pos h]
      exact ih
    · rw [if_neg h, List.dropWhile_cons, if_neg h]

theorem dropWhile_head_false (p : Char → Bool) (a : Char) (t : List Char)
    (h : List.dropWhile p (a :: t) = a :: t) : p a = false := by
  have h2 := List.dropWhile_eq_self_iff.mp h (by simp)
  exact eq_false_of_ne_true h2

theorem dropWhile_append_single (p : Char → Bool) (a : Char) (u : List Char) :
    List.dropWhile p (u ++ [a]) = [] ∨
      ∃ v, List.dropWhile p (u ++ [a]) = v ++ [a] := by
  induction u with
  | nil =>
    by_cases h : p a = true
    · left
      simp [List.dropWhile_cons, h]
    · right
      exact ⟨[], by simp [List.dropWhile_cons, h]⟩
  | cons b u ih =>
    by_cases h : p b = true
    · rw [List.cons_append, List.dropWhile_cons, if_pos h]
      exact ih
    · right
      exact ⟨b :: u, by rw [List.cons_append, List.dropWhile_cons, if_neg h]⟩

theorem trimRightChars_cons (a : Char) (t : List Char) :
    trimRightChars (a :: t) = [] ∨ ∃ v, trimRightChars (a :: t) = a :: v := by
  unfold trimRightChars
  rw [List.reverse_cons]
  rcases dropWhile_append_single goIsSpace a t.reverse with h | ⟨v, h⟩
  · left
    rw [h]
    rfl
  · right
    refine ⟨v.reverse, ?_⟩
    rw [h, List.reverse_append]
    rfl

theorem trimLeft_of_trimRight (l : List Char) (h : trimLeftChars l = l) :
    trimLeftChars (trimRightChars l) = trimRightChars l := by
  cases l with
  | nil => rfl
  | cons a t =>
    have hpa : goIsSpace a = false := dropWhile_head_false goIsSpace a t h
    rcases trimRightChars_cons a t with h2 | ⟨v, h2⟩
    · rw [h2]
      rfl
    · rw [h2]
      unfold trimLeftChars
      rw [List.dropWhile_cons, hpa]
      simp

theorem trimRightChars_idem (l : List Char) :
    trimRightChars (trimRightChars l) = trimRightChars l := by
  unfold trimRightChars
  rw [List.reverse_reverse, dropWhile_idem]

theorem trim_chars_idem (l : List Char) :
    trimRightChars (trimLeftChars (trimRightChars (trimLeftChars l))) =
      trimRightChars (trimLeftChars l) := by
  have h1 : trimLeftChars (trimLeftChars l) = trimLeftChars l :=
    dropWhile_idem _ _
  have h2 : trimLeftChars (trimRightChars (trimLeftChars l)) =
      trimRightChars (trimLeftChars l) := trimLeft_of_trimRight _ h1
  rw [h2, trimRightChars_idem]

theorem trimRightChars_append_of_trimmed (u t : List Char) (hne : t ≠ [])
    (ht : trimRightChars t = t) : trimRightChars (u ++ t) = u ++ t := by
  have hrev : List.dropWhile goIsSpace t.reverse = t.reverse := by
    have h := congrArg List.reverse ht
    rw [trimRightChars, List.reverse_reverse] at h
    exact h
  obtain ⟨b, w, hbw⟩ : ∃ b w, t.reverse = b :: w := by
    cases hrw : t.reverse with
    | nil =>
      exfalso
      apply hne
      have h2 := congrArg List.reverse hrw
      rwa [List.reverse_reverse, List.reverse_nil] at h2
    | cons b w => exact ⟨b, w, rfl⟩
  have hpb : goIsSpace b = false := by
    apply dropWhile_head_false goIsSpace b w
    rw [← hbw]
    exact hrev
  unfold trimRightChars
  rw [List.reverse_append, hbw, List.cons_append, List.dropWhile_cons, hpb,
    if_neg Bool.false_ne_true, List.reverse_cons, List.reverse_append,
    List.reverse_reverse, List.append_assoc, ← List.reverse_cons, ← hbw,
    List.reverse_reverse]

theorem hasPrefixChars_nil (s : List Char) : hasPrefixChars s [] = true := by
  cases s <;> rfl

theorem hasPrefixChars_append (x t : List Char) :
    hasPrefixChars (x ++ t) x = true := by
  induction x with
  | nil =>
    rw [List.nil_append]
    exact hasPrefixChars_nil t
  | cons a x ih =>
    rw [List.cons_append]
    simp [hasPrefixChars, ih]

theorem goTrimSpace_idem (s : String) :
    goTrimSpace (goTrimSpace s) = goTrimSpace s :=
  congrArg String.mk (trim_chars_idem s.data)

theorem trim_https_append (T : List Char) (hT : trimRightChars T = T) :
    trimRightChars (trimLeftChars ("https://".data ++ T)) =
      "https://".data ++ T := by
  have h1 : trimLeftChars ("https://".data ++ T) = "https://".data ++ T := by
    show List.dropWhile goIsSpace ('h' :: ("ttps://".data ++ T)) =
      'h' :: ("ttps://".data ++ T)
    rw [List.dropWhile_cons, show goIsSpace 'h' = false from by decide,
      if_neg Bool.false_ne_true]
  rw [h1]
  cases T with
  | nil => decide
  | cons a t =>
    exact trimRightChars_append_of_trimmed "https://".data (a :: t)
      (List.cons_ne_nil a t) hT

theorem goTrimSpace_append_https (s : String) :
    goTrimSpace ("https://" ++ goTrimSpace s) = "https://" ++ goTrimSpace s :=
  congrArg String.mk
    (trim_https_append (trimRightChars (trimLeftChars s.data))
      (trimRightChars_idem (trimLeftChars s.data)))

theorem goHasPrefix_https_append (x : String) :
    goHasPrefix ("https://" ++ x) "https://" = true :=
  hasPrefixChars_append "https://".data x.data

/-! ## C8 -/

/-- C8: URL normalization is idempotent — normalizing twice equals
normalizing once for every input string — and in particular
`example.com` normalizes to `https://example.com` while
`https://example.com` is left unchanged. -/
theorem normalizeURL_idempotent :
    (∀ s : String, normalizeURL (normalizeURL s) = normalizeURL s) ∧
    normalizeURL "example.com" = "https://example.com" ∧
    normalizeURL "https://example.com" = "https://example.com" := by
  refine ⟨?_, by decide, by decide⟩
  intro s
  unfold normalizeURL
  dsimp only
  by_cases hp : (goHasPrefix (goTrimSpace s) "http://" ||
      goHasPrefix (goTrimSpace s) "https://") = true
  · rw [if_pos hp, goTrimSpace_idem, if_pos hp]
  · rw [if_neg hp, goTrimSpace_append_https,
      goHasPrefix_https_append (goTrimSpace s), Bool.or_true, if_pos rfl]
